import Mathlib

set_option maxRecDepth 100000

/-!
# A shallow embedding of the radiate.legacy population engine

This file embeds the core of `src/radiate_legacy/src/engine/population.rs` in Lean 4 and
proves properties of the embedded code.  `f32` scores and thresholds are modelled as `ℚ`
(the claims checked here are exact-comparison and ±0.1-step properties that do not depend
on rounding), `usize` as `Nat`, `i32` as `Int` with the `as usize` cast made explicit.

The repository excerpt contains only `population.rs` and the trait module `mod.rs`; the
`Generation`, `Niche`, `Genocide` and selection-policy modules it calls into are not part
of the excerpt, so those operations are modelled from the specification (each such
definition carries a doc comment starting with `Modelled from the spec:`).
-/

/-- Modelled from the spec: `SurvivalCriteria` (survival.rs is not under src/).
Closed sum type of survivor-selection policies (§4.5). -/
inductive SurvivalCriteria where
  | Fittest : SurvivalCriteria
  | TopN : Nat → SurvivalCriteria
deriving DecidableEq

/-- Modelled from the spec: `ParentalCriteria` (survival.rs is not under src/).
Closed sum type of parent-selection policies (§4.5). -/
inductive ParentalCriteria where
  | BiasedRandom : ParentalCriteria
  | BestInSpecies : ParentalCriteria
  | UniformRandom : ParentalCriteria
deriving DecidableEq

/-- Modelled from the spec: `Genocide` (genocide.rs is not under src/).
Closed sum type of diversity-restoring operators (§4.4). -/
inductive Genocide where
  | KillWorst : ℚ → Genocide
  | KillOldestSpecies : Nat → Genocide
  | KillRandom : ℚ → Genocide
  | KillStaleSpecies : Nat → Genocide
deriving DecidableEq

/-- `Container` from generation.rs, per the data model of §3/§4.2: one live candidate,
its fitness score (initialised 0) and the id of its niche, if assigned. -/
structure Container (G : Type) where
  member : G
  fitness_score : ℚ
  species : Option Nat
deriving DecidableEq

/-- Modelled from the spec: `Niche` (niche.rs is not under src/), fields per §3. -/
structure Niche (G : Type) where
  representative : G
  memberIdxs : List Nat
  best_score : ℚ
  age : Nat
  stagnation_age : Nat
deriving DecidableEq

/-- `Generation` per §3: members, species list and the generation-local selection
policies (the field layout is visible in the `Generation` literals of population.rs). -/
structure Generation (G : Type) where
  members : List (Container G)
  species : List (Niche G)
  survival_criteria : SurvivalCriteria
  parental_criteria : ParentalCriteria
deriving DecidableEq

/-- `Stagnant` from population.rs. -/
structure Stagnant where
  target_stagnation : Nat
  current_stagnation : Nat
  previous_top_score : ℚ
  cleaners : List Genocide
deriving DecidableEq

/-- `Config` from population.rs. -/
structure Config where
  inbreed_rate : ℚ
  crossover_rate : ℚ
  distance : ℚ
  species_target : Nat
deriving DecidableEq

/-- `Population` from population.rs.  The `solve` problem handle is not stored: the
fitness function is passed explicitly to `train`, mirroring that the `Problem` is
immutable and only read during `optimize`. -/
structure Population (G E : Type) where
  size : Int
  dynamic_distance : Bool
  debug_progress : Bool
  config : Config
  curr_gen : Generation G
  stagnation : Stagnant
  environment : E
  survivor_criteria : SurvivalCriteria
  parental_criteria : ParentalCriteria
deriving DecidableEq

/-- `Config::new` from population.rs. -/
def Config.new : Config :=
  { inbreed_rate := 0, crossover_rate := 0, distance := 0, species_target := 0 }

/-- `Stagnant::new` from population.rs. -/
def Stagnant.new (target_stagnation : Nat) (cleaners : List Genocide) : Stagnant :=
  { target_stagnation := target_stagnation, current_stagnation := 0,
    previous_top_score := 0, cleaners := cleaners }

/-- Modelled from the spec: `Generation::new` (generation.rs is not under src/): the
empty first generation with the default selection policies used throughout
population.rs. -/
def Generation.new (G : Type) : Generation G :=
  { members := [], species := [],
    survival_criteria := SurvivalCriteria.Fittest,
    parental_criteria := ParentalCriteria.BiasedRandom }

/-- `Population::new` from population.rs (size 100, everything else default). -/
def Population.new (G E : Type) [Inhabited E] : Population G E :=
  { size := 100, dynamic_distance := false, debug_progress := false,
    config := Config.new, curr_gen := Generation.new G,
    stagnation := Stagnant.new 0 [], environment := default,
    survivor_criteria := SurvivalCriteria.Fittest,
    parental_criteria := ParentalCriteria.BiasedRandom }

/-- The Rust cast `n as usize` for an `i32` value `n`: sign-extend and reinterpret mod 2^64. -/
def usizeOfI32 (n : Int) : Nat := (n % (2 : Int) ^ 64).toNat

namespace Population

variable {G E : Type}

/-- Builder `Population::size` (named `sizeSet` because `size` is the field). -/
def sizeSet (p : Population G E) (n : Int) : Population G E := { p with size := n }

/-- Builder `Population::dynamic_distance` (the field has the same name in the source). -/
def dynamic_distanceSet (p : Population G E) (opt : Bool) : Population G E :=
  { p with dynamic_distance := opt }

/-- Builder `Population::stagnation` (the field has the same name in the source). -/
def stagnationSet (p : Population G E) (stag : Nat) (cleaner : List Genocide) :
    Population G E :=
  { p with stagnation := Stagnant.new stag cleaner }

/-- Builder `Population::configure`. -/
def configure (p : Population G E) (spec : Config) : Population G E :=
  { p with config := spec }

/-- Builder `Population::constrain`. -/
def constrain (p : Population G E) (environment : E) : Population G E :=
  { p with environment := environment }

/-- Builder `Population::debug`. -/
def debug (p : Population G E) (d : Bool) : Population G E :=
  { p with debug_progress := d }

/-- Builder `Population::survivor_criteria` (the field has the same name in the source). -/
def survivor_criteriaSet (p : Population G E) (survive : SurvivalCriteria) :
    Population G E :=
  { p with survivor_criteria := survive }

/-- Builder `Population::parental_criteria` (the field has the same name in the source). -/
def parental_criteriaSet (p : Population G E) (parents : ParentalCriteria) :
    Population G E :=
  { p with parental_criteria := parents }

/-- `Population::populate_gen` from population.rs. -/
def populate_gen (p : Population G E) (gen : Generation G) : Population G E :=
  { p with curr_gen := gen }

/-- `Population::populate_vec` from population.rs: one container per input genome, in
order, each with fitness 0 and no species, and the hardcoded default policies. -/
def populate_vec (p : Population G E) (vals : List G) : Population G E :=
  { p with curr_gen :=
    { members := vals.map (fun x =>
        { member := x, fitness_score := 0, species := none }),
      species := [],
      survival_criteria := SurvivalCriteria.Fittest,
      parental_criteria := ParentalCriteria.BiasedRandom } }

/-- `Population::populate_clone` from population.rs: `size as usize` clones of the
original, each with fitness 0 and no species, and the hardcoded default policies. -/
def populate_clone (p : Population G E) (original : G) : Population G E :=
  { p with curr_gen :=
    { members := List.replicate (usizeOfI32 p.size)
        { member := original, fitness_score := 0, species := none },
      species := [],
      survival_criteria := SurvivalCriteria.Fittest,
      parental_criteria := ParentalCriteria.BiasedRandom } }

end Population

/-- Insert a container into a fitness-ascending list (stable). -/
def insertByFitness {G : Type} (c : Container G) :
    List (Container G) → List (Container G)
  | [] => [c]
  | d :: rest =>
    if c.fitness_score ≤ d.fitness_score then c :: d :: rest
    else d :: insertByFitness c rest

/-- Stable insertion sort of containers by ascending fitness. -/
def sortByFitnessAsc {G : Type} (ms : List (Container G)) : List (Container G) :=
  ms.foldr insertByFitness []

/-- Insert a niche into an age-descending list (stable). -/
def insertByAgeDesc {G : Type} (n : Niche G) : List (Niche G) → List (Niche G)
  | [] => [n]
  | m :: rest =>
    if m.age ≤ n.age then n :: m :: rest
    else m :: insertByAgeDesc n rest

/-- Stable insertion sort of niches by descending age. -/
def sortByAgeDesc {G : Type} (ns : List (Niche G)) : List (Niche G) :=
  ns.foldr insertByAgeDesc []

/-- Modelled from the spec: `Genocide::kill` (genocide.rs is not under src/), per the
table of §4.4.  `KillWorst` removes the bottom fraction of members by fitness,
`KillOldestSpecies` deletes the n oldest species, `KillStaleSpecies` removes species at
or above the staleness age.  `KillRandom` draws a uniform-random fraction in the source;
randomness is not representable here, so the model removes the leading fraction (no
claim in this development depends on which members a random cull picks). -/
def Genocide.kill {G : Type} : Genocide → Generation G → Generation G
  | Genocide.KillWorst pct, gen =>
    let k := (pct * (gen.members.length : ℚ)).floor.toNat
    { gen with members := (sortByFitnessAsc gen.members).drop k }
  | Genocide.KillOldestSpecies n, gen =>
    { gen with species := (sortByAgeDesc gen.species).drop n }
  | Genocide.KillRandom pct, gen =>
    let k := (pct * (gen.members.length : ℚ)).floor.toNat
    { gen with members := gen.members.drop k }
  | Genocide.KillStaleSpecies age, gen =>
    { gen with species := gen.species.filter (fun n => n.stagnation_age < age) }

/-- Modelled from the spec: the scan inside `Generation::best_member` (generation.rs is
not under src/): the (score, genome) of maximum fitness, ties broken by lower index. -/
def bmList {G : Type} : List (Container G) → Option (ℚ × G)
  | [] => none
  | c :: rest =>
    match bmList rest with
    | none => some (c.fitness_score, c.member)
    | some (s, g) =>
      if s > c.fitness_score then some (s, g) else some (c.fitness_score, c.member)

/-- Modelled from the spec: `Generation::best_member` (§4.6): none iff `members` is
empty, otherwise the maximum-fitness member with ties broken by lower index. -/
def best_member {G : Type} (gen : Generation G) : Option (ℚ × G) :=
  bmList gen.members

/-- `(s, g)` is the fitness-maximal member of `gen`, every strictly earlier member
having strictly smaller fitness (the lower-index tie break). -/
def IsTopMember {G : Type} (gen : Generation G) (s : ℚ) (g : G) : Prop :=
  ∃ pre c post, gen.members = pre ++ c :: post ∧
    c.fitness_score = s ∧ c.member = g ∧
    (∀ d ∈ gen.members, d.fitness_score ≤ s) ∧
    (∀ d ∈ pre, d.fitness_score < s)

/-- Modelled from the spec: `Niche::accepts` (§4.3): distance to the representative is
strictly below the threshold. -/
def nicheAccepts {G : Type} (distFn : G → G → ℚ) (threshold : ℚ) (n : Niche G)
    (g : G) : Bool :=
  decide (distFn g n.representative < threshold)

/-- Modelled from the spec: one placement step of `Generation::speciate` (§4.6 step 2/3):
put the container into the first niche whose representative accepts it, else open a new
niche with the container as representative.  The accumulator carries the niche list and
the members processed so far (the next index is the length of the latter). -/
def speciateStep {G : Type} (distFn : G → G → ℚ) (threshold : ℚ)
    (acc : List (Niche G) × List (Container G)) (c : Container G) :
    List (Niche G) × List (Container G) :=
  let idx := acc.2.length
  match acc.1.findIdx? (fun n => nicheAccepts distFn threshold n c.member) with
  | some i =>
    match acc.1.get? i with
    | some n =>
      (acc.1.set i { n with memberIdxs := n.memberIdxs ++ [idx] },
       acc.2 ++ [{ c with species := some i }])
    | none => (acc.1, acc.2 ++ [{ c with species := some i }])
  | none =>
    (acc.1 ++ [{ representative := c.member, memberIdxs := [idx],
                 best_score := c.fitness_score, age := 0, stagnation_age := 0 }],
     acc.2 ++ [{ c with species := some acc.1.length }])

/-- Modelled from the spec: `Generation::speciate` (§4.6, generation.rs is not under
src/): start from the carried niches emptied of members, place every container in index
order, drop empty niches, then update the best score of each surviving niche, age and staleness. -/
def speciate {G : Type} (distFn : G → G → ℚ) (threshold : ℚ) (gen : Generation G) :
    Generation G :=
  let carried := gen.species.map (fun n => { n with memberIdxs := ([] : List Nat) })
  let folded := gen.members.foldl (speciateStep distFn threshold) (carried, [])
  let kept := folded.1.filter (fun n => !n.memberIdxs.isEmpty)
  let updated := kept.map (fun n =>
    let scores := n.memberIdxs.filterMap (fun i =>
      (folded.2.get? i).map (fun c => c.fitness_score))
    let best := match scores with
      | [] => n.best_score
      | s :: rest => rest.foldl max s
    { n with best_score := best, age := n.age + 1,
             stagnation_age := if n.best_score < best then 0 else n.stagnation_age + 1 })
  { gen with members := folded.2, species := updated }

/-- `Generation::optimize` per §4.6: evaluate `solve` on every member (which may mutate
the genome) and store the returned score as its fitness. -/
def optimize {G : Type} (solveFn : G → ℚ × G) (gen : Generation G) : Generation G :=
  { gen with members := gen.members.map (fun c =>
      let r := solveFn c.member
      { c with member := r.2, fitness_score := r.1 }) }

/-- Modelled from the spec: `Generation::create_next_generation` (§4.6, generation.rs is
not under src/).  Per the spec it returns none only when the input generation is empty,
produces exactly `size` (cast to usize) members, and carries the species list cleared of
members with representatives preserved.  Offspring identity (quota apportionment, parent
selection, crossover) is abstracted: every slot is filled with a fresh container holding
the genome of the first member, since no claim here depends on which genomes fill the next
generation.  Note the call site in population.rs passes only `size`, a clone of the
`Config` and the environment handle. -/
def create_next_generation {G : Type} (size : Int) (_spec : Config)
    (gen : Generation G) : Option (Generation G) :=
  match gen.members with
  | [] => none
  | c :: _ =>
    some { members := List.replicate (usizeOfI32 size)
             { member := c.member, fitness_score := 0, species := none },
           species := gen.species.map (fun n => { n with memberIdxs := ([] : List Nat) }),
           survival_criteria := gen.survival_criteria,
           parental_criteria := gen.parental_criteria }

namespace Population

variable {G E : Type}

/-- `Population::manage_stagnation` from population.rs, translated branch for branch:
when the target equals the current stagnation the cleaners run (in declaration order)
and the counter resets; otherwise an exact score match increments the counter, any other
score resets it; the previous top score is always overwritten at the end. -/
def manage_stagnation (curr_top_score : ℚ) (p : Population G E) : Population G E :=
  if p.stagnation.target_stagnation = p.stagnation.current_stagnation then
    { p with
      curr_gen := p.stagnation.cleaners.foldl (fun g c => Genocide.kill c g) p.curr_gen,
      stagnation := { p.stagnation with
        current_stagnation := 0, previous_top_score := curr_top_score } }
  else if curr_top_score = p.stagnation.previous_top_score then
    { p with stagnation := { p.stagnation with
        current_stagnation := p.stagnation.current_stagnation + 1,
        previous_top_score := curr_top_score } }
  else
    { p with stagnation := { p.stagnation with
        current_stagnation := 0, previous_top_score := curr_top_score } }

/-- `Population::adjust_distance` from population.rs, translated branch for branch. -/
def adjust_distance (p : Population G E) : Population G E :=
  let d1 :=
    if p.curr_gen.species.length < p.config.species_target then
      p.config.distance - 1/10
    else if p.curr_gen.species.length > p.config.species_target then
      p.config.distance + 1/10
    else p.config.distance
  let d2 := if d1 < 2/10 then 1/10 else d1
  { p with config := { p.config with distance := d2 } }

/-- The middle of `Population::end_generation` from population.rs, named so that the
state between the stagnation monitor and the construction of the next generation can be
reasoned about: optionally adjust the distance, speciate at the (possibly adjusted)
threshold, then run the stagnation monitor on the top score `s`. -/
def afterMonitor (distFn : G → G → ℚ) (s : ℚ) (p : Population G E) : Population G E :=
  let p1 := if p.dynamic_distance then p.adjust_distance else p
  let p2 := { p1 with curr_gen := speciate distFn p1.config.distance p1.curr_gen }
  manage_stagnation s p2

/-- `Population::end_generation` from population.rs: capture the top member, optionally
adjust the distance, speciate, run the stagnation monitor, then replace the current
generation; either fallible step exits with none (the second after the intermediate
mutations, matching the `?` early returns of the source). -/
def end_generation (distFn : G → G → ℚ) (p : Population G E) :
    Option (ℚ × G) × Population G E :=
  match best_member p.curr_gen with
  | none => (none, p)
  | some top =>
    let p3 := afterMonitor distFn top.1 p
    match create_next_generation p3.size p3.config p3.curr_gen with
    | none => (none, p3)
    | some g => (some top, { p3 with curr_gen := g })

/-- `Population::train` from population.rs: optimize the current generation, then run
`end_generation`. -/
def train (solveFn : G → ℚ × G) (distFn : G → G → ℚ) (p : Population G E) :
    Option (ℚ × G) × Population G E :=
  end_generation distFn { p with curr_gen := optimize solveFn p.curr_gen }

end Population

/-- Outcome of `Population::run`: success with the solution genome and an environment
snapshot, the training error of the source, or fuel exhaustion (the source loops
unboundedly; the embedding makes the loop total with explicit fuel). -/
inductive RunResult (G E : Type) where
  | ok : G → E → RunResult G E
  | err : String → RunResult G E
  | fuelOut : RunResult G E
deriving DecidableEq

namespace Population

variable {G E : Type}

/-- The loop body of `Population::run` from population.rs, with explicit fuel and the
running iteration index. -/
def runAux (solveFn : G → ℚ × G) (distFn : G → G → ℚ)
    (runner : G → ℚ → Int → Bool) :
    Nat → Int → Population G E → RunResult G E
  | 0, _, _ => RunResult.fuelOut
  | fuel + 1, index, p =>
    match train solveFn distFn p with
    | (some (fit, top), p2) =>
      if runner top fit index then RunResult.ok top p2.environment
      else runAux solveFn distFn runner fuel (index + 1) p2
    | (none, _) => RunResult.err "Error Training"

/-- `Population::run` from population.rs: loop `train`, feeding the runner the top
genome, its fitness and the iteration index starting at 0. -/
def run (solveFn : G → ℚ × G) (distFn : G → G → ℚ)
    (runner : G → ℚ → Int → Bool) (fuel : Nat) (p : Population G E) :
    RunResult G E :=
  runAux solveFn distFn runner fuel 0 p

/-- The population state after `n` calls to `train`. -/
def trainIter (solveFn : G → ℚ × G) (distFn : G → G → ℚ) :
    Nat → Population G E → Population G E
  | 0, p => p
  | n + 1, p => trainIter solveFn distFn n (train solveFn distFn p).2

/-- The result of the `(n+1)`-th call to `train` (0-indexed call `n`). -/
def trainRes (solveFn : G → ℚ × G) (distFn : G → G → ℚ) (p : Population G E)
    (n : Nat) : Option (ℚ × G) :=
  (train solveFn distFn (trainIter solveFn distFn n p)).1

end Population

/-- A genome whose genetic distance is always 1 between any two members. -/
def constDist : Unit → Unit → ℚ := fun _ _ => 1

/-- A Problem returning the same fitness `c` for every genome, never mutating it. -/
def constSolve (c : ℚ) : Unit → ℚ × Unit := fun g => (c, g)

/-- Constant distance 1 on a numeric genome. -/
def natDist : Nat → Nat → ℚ := fun _ _ => 1

/-- A Problem whose fitness is the numeric value of the genome itself. -/
def natSolve : Nat → ℚ × Nat := fun g => ((g : ℚ), g)

/-- Size-4 population of clones with `target_stagnation = 1` and a `KillWorst(0.5)`
cleaner, fed a constant-fitness problem in the stagnation-trigger scenario. -/
def popC1 : Population Unit Unit :=
  (((Population.new Unit Unit).stagnationSet 1 [Genocide.KillWorst (1/2)]).sizeSet
    4).populate_clone ()

/-- The state of `popC1` after two trains: the stagnation counter has just reached the
target, so the next invocation of the monitor fires the cleaners. -/
def popC1fire : Population Unit Unit :=
  Population.trainIter (constSolve 1) constDist 2 popC1

/-- The distance auto-tune scenario of spec §8 S3: `distance = 3.0`,
`species_target = 5`, dynamic distance on, six members at mutual distance 1. -/
def popC2 : Population Unit Unit :=
  ((((Population.new Unit Unit).configure
    { inbreed_rate := 0, crossover_rate := 0, distance := 3,
      species_target := 5 }).dynamic_distanceSet true).sizeSet 6).populate_clone ()

/-- `config.distance` of the S3 scenario after `t` trains. -/
def c2dist (t : Nat) : ℚ :=
  (Population.trainIter (constSolve 1) constDist t popC2).config.distance

/-- Species count of the S3 scenario after `t` trains. -/
def c2count (t : Nat) : Nat :=
  (Population.trainIter (constSolve 1) constDist t popC2).curr_gen.species.length

/-- A fresh default population: `target_stagnation = 0 = current_stagnation` and
`previous_top_score = 0.0`. -/
def popC3 : Population Unit Unit := Population.new Unit Unit

/-- Three members with distinct fitness values 3, 7, 5 (via `natSolve`). -/
def popC5 : Population Nat Unit :=
  ((Population.new Nat Unit).sizeSet 3).populate_vec [3, 7, 5]

/-- A nonempty population whose cleaners fire on every invocation
(`target_stagnation = 0`) and remove every member (`KillWorst(1.0)`). -/
def popC5kill : Population Unit Unit :=
  (((Population.new Unit Unit).stagnationSet 0 [Genocide.KillWorst 1]).sizeSet
    3).populate_clone ()

/-- Population for exercising the `run` loop. -/
def popC6 : Population Nat Unit :=
  ((Population.new Nat Unit).sizeSet 3).populate_vec [3, 7, 5]

/-- A runner predicate that stops at iteration index 1. -/
def runnerC6 : Nat → ℚ → Int → Bool := fun _ _ i => decide (i = 1)

/-- A population with `dynamic_distance = false` and a nonzero distance threshold. -/
def popC9 : Population Unit Unit :=
  (((Population.new Unit Unit).configure
    { inbreed_rate := 0, crossover_rate := 0, distance := 7/2,
      species_target := 5 }).sizeSet 4).populate_clone ()

/-! ## C1: the stagnation trigger -/

/-- C1, counterexample.  The claim says that with `target_stagnation = k` and a
constant-fitness Problem the cleaners fire exactly on generation `k+1` with
`current_stagnation` reset to 0 there.  With `k = 1` and constant fitness 1.0 the
counter is still 1 after generation `k+1 = 2` (a firing invocation always ends with the
counter at 0), so no cleaner fired there; the monitor only fires on generation
`k+2 = 3`.  The first comparison (against the initial `previous_top_score = 0.0`) resets
the counter, and the source checks `target == current` before comparing scores, so the
increment that reaches the target is only seen by the next invocation. -/
theorem manage_stagnation_no_fire_on_gen_k1 :
    (Population.trainIter (constSolve 1) constDist 2 popC1).stagnation.current_stagnation
        = 1
    ∧ (Population.trainIter (constSolve 1) constDist 3
        popC1).stagnation.current_stagnation = 0 := by
  with_unfolding_all decide

/-- C1, amended: in the invocation of the stagnation monitor that starts with
`current_stagnation` equal to `target_stagnation`, every configured cleaner is applied
to the current generation (in declaration order) and `current_stagnation` resets to 0 in
that same invocation; the increment that makes the counter reach the target happens one
invocation earlier, so with `target_stagnation = k ≥ 1` and a constant fitness that
differs from the initial `previous_top_score = 0.0` the cleaners first fire on
generation `k+2`, not `k+1`. -/
theorem manage_stagnation_fires_at_target {G E : Type} (p : Population G E) (s : ℚ)
    (h : p.stagnation.target_stagnation = p.stagnation.current_stagnation) :
    (Population.manage_stagnation s p).curr_gen
        = p.stagnation.cleaners.foldl (fun g c => Genocide.kill c g) p.curr_gen
    ∧ (Population.manage_stagnation s p).stagnation.current_stagnation = 0
    ∧ (Population.manage_stagnation s p).stagnation.previous_top_score = s := by
  unfold Population.manage_stagnation
  rw [if_pos h]
  exact ⟨rfl, rfl, rfl⟩

/-- C1, witness: after two constant-fitness trains of `popC1` the counter sits at the
target, and the next monitor invocation applies the cleaners and resets the counter. -/
theorem manage_stagnation_fires_at_target_witness :
    popC1fire.stagnation.target_stagnation = popC1fire.stagnation.current_stagnation
    ∧ ((Population.manage_stagnation 5 popC1fire).curr_gen
        = popC1fire.stagnation.cleaners.foldl (fun g c => Genocide.kill c g)
            popC1fire.curr_gen
      ∧ (Population.manage_stagnation 5 popC1fire).stagnation.current_stagnation = 0
      ∧ (Population.manage_stagnation 5 popC1fire).stagnation.previous_top_score = 5) :=
  ⟨by with_unfolding_all decide,
   manage_stagnation_fires_at_target popC1fire 5 (by with_unfolding_all decide)⟩

/-! ## C2: the distance auto-tune scenario -/

/-- C2, counterexample.  In the S3 scenario (`distance = 3.0`, `species_target = 5`,
dynamic distance on, all mutual distances 1.0) the claim says the species count
converges toward 1 and `config.distance` monotonically increases until the count is 1.
In fact `adjust_distance` subtracts 0.1 whenever the species count is below the target,
so the very first train lowers the distance from 3.0 to 2.9, and once the threshold has
fallen to 1.0 the species count oscillates between 1 and the population size 6 forever
(trains 20, 21, 22 give counts 6, 1, 6) instead of converging to 1. -/
theorem distance_autotune_not_convergent :
    c2dist 0 = 3 ∧ c2dist 1 = 29/10 ∧ c2dist 1 < c2dist 0
    ∧ c2count 20 = 6 ∧ c2count 21 = 1 ∧ c2count 22 = 6 ∧ c2dist 22 = 1 := by
  with_unfolding_all decide

/-- C2, amended: in the S3 scenario the distance monotonically DECREASES by 0.1 per
train (`adjust_distance` lowers the threshold while the species count is below
`species_target`), from 3.0 down to 1.0 over the first 20 trains while the species
count stays at most 1; thereafter the species count oscillates between 1 and the
population size 6 and the distance between 1.0 and 1.1, so the species count does not
converge to 1. -/
theorem distance_autotune_decreases_and_oscillates :
    (∀ t, t < 20 → c2dist t = 3 - (t : ℚ)/10)
    ∧ (∀ t, t < 20 → c2count t ≤ 1)
    ∧ c2dist 20 = 1 ∧ c2count 20 = 6
    ∧ c2dist 21 = 11/10 ∧ c2count 21 = 1
    ∧ c2dist 22 = 1 ∧ c2count 22 = 6
    ∧ c2dist 23 = 11/10 ∧ c2count 23 = 1 := by
  with_unfolding_all decide

/-- C2, witness for the bounded quantifiers of the amended statement, at `t = 5`. -/
theorem distance_autotune_decreases_and_oscillates_witness :
    (5 : Nat) < 20 ∧ c2dist 5 = 3 - (5 : ℚ)/10 ∧ c2count 5 ≤ 1 :=
  ⟨by decide, distance_autotune_decreases_and_oscillates.1 5 (by decide),
   distance_autotune_decreases_and_oscillates.2.1 5 (by decide)⟩

/-! ## C3: the stagnation monitor branches -/

/-- C3, counterexample.  The claim says every invocation with current top score equal to
`previous_top_score` increments `current_stagnation`.  On a fresh population
(`target_stagnation = 0 = current_stagnation`, `previous_top_score = 0.0`) an
invocation with top score 0.0 matches `previous_top_score`, yet the counter stays 0
instead of becoming 1: the source checks `target == current` first, and that branch
resets the counter without comparing scores. -/
theorem manage_stagnation_no_increment_at_target :
    (0 : ℚ) = popC3.stagnation.previous_top_score
    ∧ (Population.manage_stagnation 0 popC3).stagnation.current_stagnation = 0
    ∧ (Population.manage_stagnation 0 popC3).stagnation.current_stagnation
        ≠ popC3.stagnation.current_stagnation + 1 := by
  with_unfolding_all decide

/-- C3, amended: unless `current_stagnation` equals `target_stagnation` at entry (in
which case the cleaners run and the counter resets to 0 regardless of the score), an
invocation with top score bitwise equal to `previous_top_score` increments the counter
and any other score resets it; `previous_top_score` is set to the current top in every
case. -/
theorem manage_stagnation_branch_characterization {G E : Type} (p : Population G E)
    (s : ℚ) :
    (Population.manage_stagnation s p).stagnation.previous_top_score = s
    ∧ (Population.manage_stagnation s p).stagnation.current_stagnation
        = (if p.stagnation.target_stagnation = p.stagnation.current_stagnation then 0
           else if s = p.stagnation.previous_top_score then
             p.stagnation.current_stagnation + 1
           else 0)
    ∧ (Population.manage_stagnation s p).curr_gen
        = (if p.stagnation.target_stagnation = p.stagnation.current_stagnation then
             p.stagnation.cleaners.foldl (fun g c => Genocide.kill c g) p.curr_gen
           else p.curr_gen) := by
  unfold Population.manage_stagnation
  split_ifs with h1 h2 <;> exact ⟨rfl, rfl, rfl⟩

/-! ## C4: the distance floor -/

/-- C4: after every run of `adjust_distance` the distance is at least 0.1, and the
adjustment is exactly: subtract 0.1 below the species target, add 0.1 above it, then
raise any result below 0.2 to 0.1. -/
theorem adjust_distance_floor {G E : Type} (p : Population G E) :
    1/10 ≤ (Population.adjust_distance p).config.distance
    ∧ (Population.adjust_distance p).config.distance
        = (let d :=
             if p.curr_gen.species.length < p.config.species_target then
               p.config.distance - 1/10
             else if p.config.species_target < p.curr_gen.species.length then
               p.config.distance + 1/10
             else p.config.distance
           if d < 2/10 then 1/10 else d) := by
  refine ⟨?_, rfl⟩
  unfold Population.adjust_distance
  dsimp only
  split_ifs with h1 h2 h3 h4 h5 <;> simp only [not_lt] at * <;> linarith

/-! ## C5: the value returned by train -/

/-- The best-member scan returns none exactly on the empty member list. -/
theorem bmList_eq_none_iff {G : Type} (ms : List (Container G)) :
    bmList ms = none ↔ ms = [] := by
  cases ms with
  | nil => simp [bmList]
  | cons c rest =>
    simp only [bmList]
    cases h : bmList rest with
    | none => simp
    | some v => obtain ⟨s, g⟩ := v; dsimp only; split <;> simp

/-- The best-member scan returns the maximum-fitness entry, ties broken by the lower
index: every entry strictly before the returned one has strictly smaller fitness. -/
theorem bmList_top {G : Type} :
    ∀ (ms : List (Container G)) (s : ℚ) (g : G), bmList ms = some (s, g) →
      ∃ pre c post, ms = pre ++ c :: post ∧ c.fitness_score = s ∧ c.member = g
        ∧ (∀ d ∈ ms, d.fitness_score ≤ s) ∧ (∀ d ∈ pre, d.fitness_score < s) := by
  intro ms
  induction ms with
  | nil => intro s g h; simp [bmList] at h
  | cons c rest ih =>
    intro s g h
    simp only [bmList] at h
    cases hr : bmList rest with
    | none =>
      rw [hr] at h
      dsimp only at h
      simp only [Option.some.injEq, Prod.mk.injEq] at h
      obtain ⟨hs, hg⟩ := h
      have hrest : rest = [] := (bmList_eq_none_iff rest).mp hr
      subst hrest
      refine ⟨[], c, [], rfl, hs, hg, ?_, by simp⟩
      intro d hd
      have hd0 : d = c := by simpa using hd
      subst hd0
      exact hs.le
    | some v =>
      obtain ⟨s0, g0⟩ := v
      rw [hr] at h
      dsimp only at h
      by_cases hgt : s0 > c.fitness_score
      · rw [if_pos hgt] at h
        simp only [Option.some.injEq, Prod.mk.injEq] at h
        obtain ⟨hs, hg⟩ := h
        subst hs; subst hg
        obtain ⟨pre, cc, post, hms, hfit, hmem, hall, hpre⟩ := ih _ _ hr
        refine ⟨c :: pre, cc, post, by rw [hms]; rfl, hfit, hmem, ?_, ?_⟩
        · intro d hd
          rcases List.mem_cons.mp hd with h1 | h2
          · subst h1; exact le_of_lt hgt
          · exact hall d h2
        · intro d hd
          rcases List.mem_cons.mp hd with h1 | h2
          · subst h1; exact hgt
          · exact hpre d h2
      · rw [if_neg hgt] at h
        simp only [Option.some.injEq, Prod.mk.injEq] at h
        obtain ⟨hs, hg⟩ := h
        have hle : s0 ≤ c.fitness_score := not_lt.mp hgt
        obtain ⟨pre, cc, post, hms, hfit, hmem, hall, hpre⟩ := ih _ _ hr
        refine ⟨[], c, rest, rfl, hs, hg, ?_, by simp⟩
        intro d hd
        rcases List.mem_cons.mp hd with h1 | h2
        · subst h1; exact hs.le
        · calc d.fitness_score ≤ s0 := hall d h2
            _ ≤ c.fitness_score := hle
            _ = s := hs

/-- Every placement step appends exactly one processed container. -/
theorem speciateStep_snd_length {G : Type} (dF : G → G → ℚ) (t : ℚ)
    (acc : List (Niche G) × List (Container G)) (c : Container G) :
    (speciateStep dF t acc c).2.length = acc.2.length + 1 := by
  unfold speciateStep
  dsimp only
  split
  · split <;> simp
  · simp

/-- The speciation fold preserves the container count. -/
theorem speciate_foldl_length {G : Type} (dF : G → G → ℚ) (t : ℚ) :
    ∀ (l : List (Container G)) (acc : List (Niche G) × List (Container G)),
      (l.foldl (speciateStep dF t) acc).2.length = acc.2.length + l.length := by
  intro l
  induction l with
  | nil => intro acc; simp
  | cons c rest ih =>
    intro acc
    simp only [List.foldl_cons]
    rw [ih, speciateStep_snd_length]
    simp [List.length_cons]
    omega

/-- Speciation neither adds nor removes members. -/
theorem speciate_members_length {G : Type} (dF : G → G → ℚ) (t : ℚ)
    (gen : Generation G) :
    (speciate dF t gen).members.length = gen.members.length := by
  unfold speciate
  dsimp only
  rw [speciate_foldl_length]
  simp

/-- The modelled next-generation constructor fails exactly on an empty generation. -/
theorem create_next_generation_eq_none_iff {G : Type} (n : Int) (cfg : Config)
    (gen : Generation G) :
    create_next_generation n cfg gen = none ↔ gen.members = [] := by
  rcases hm : gen.members with _ | ⟨c, cs⟩ <;> simp [create_next_generation, hm]

/-- When the stagnation counter has not reached the target, the monitor does not touch
the generation. -/
theorem manage_stagnation_curr_gen_of_ne {G E : Type} (p : Population G E) (s : ℚ)
    (h : p.stagnation.target_stagnation ≠ p.stagnation.current_stagnation) :
    (Population.manage_stagnation s p).curr_gen = p.curr_gen := by
  unfold Population.manage_stagnation
  rw [if_neg h]
  split <;> rfl

/-- With no cleaners configured the monitor never touches the generation. -/
theorem manage_stagnation_curr_gen_of_no_cleaners {G E : Type} (p : Population G E)
    (s : ℚ) (h : p.stagnation.cleaners = []) :
    (Population.manage_stagnation s p).curr_gen = p.curr_gen := by
  unfold Population.manage_stagnation
  split_ifs <;> simp [h]

/-- The stagnation monitor changes only `curr_gen` and `stagnation`. -/
theorem manage_stagnation_frame {G E : Type} (p : Population G E) (s : ℚ) :
    (Population.manage_stagnation s p).size = p.size
    ∧ (Population.manage_stagnation s p).config = p.config
    ∧ (Population.manage_stagnation s p).dynamic_distance = p.dynamic_distance
    ∧ (Population.manage_stagnation s p).environment = p.environment := by
  unfold Population.manage_stagnation
  split_ifs <;> exact ⟨rfl, rfl, rfl, rfl⟩

/-- The pre-create state keeps the stagnation record it had before the monitor ran,
as far as the guard fields are concerned, and its generation is the speciated one,
possibly culled by cleaners. -/
theorem afterMonitor_stagnation_src {G E : Type} (p : Population G E) :
    ((if p.dynamic_distance then p.adjust_distance else p)).stagnation
      = p.stagnation := by
  split <;> rfl

/-- Under a quiet monitor (counter below target), `afterMonitor` preserves the member
count. -/
theorem afterMonitor_members_length_of_ne {G E : Type} (dF : G → G → ℚ) (s : ℚ)
    (p : Population G E)
    (h : p.stagnation.target_stagnation ≠ p.stagnation.current_stagnation) :
    (Population.afterMonitor dF s p).curr_gen.members.length
      = p.curr_gen.members.length := by
  unfold Population.afterMonitor
  dsimp only
  rw [manage_stagnation_curr_gen_of_ne]
  · show (speciate dF _ _).members.length = _
    rw [speciate_members_length]
    congr 1
    split <;> rfl
  · show (if p.dynamic_distance then p.adjust_distance else p).stagnation.target_stagnation ≠ _
    rw [afterMonitor_stagnation_src p]
    exact h

/-- With no cleaners, `afterMonitor` preserves the member count. -/
theorem afterMonitor_members_length_of_no_cleaners {G E : Type} (dF : G → G → ℚ)
    (s : ℚ) (p : Population G E) (h : p.stagnation.cleaners = []) :
    (Population.afterMonitor dF s p).curr_gen.members.length
      = p.curr_gen.members.length := by
  unfold Population.afterMonitor
  dsimp only
  rw [manage_stagnation_curr_gen_of_no_cleaners]
  · show (speciate dF _ _).members.length = _
    rw [speciate_members_length]
    congr 1
    split <;> rfl
  · show (if p.dynamic_distance then p.adjust_distance else p).stagnation.cleaners = []
    rw [afterMonitor_stagnation_src p]
    exact h

/-- C5, counterexample.  The claim says train returns none iff the current generation
has no members.  With `target_stagnation = 0` (so the monitor fires on every invocation)
and a `KillWorst(1.0)` cleaner, the cleaners empty the speciated generation, the
next-generation constructor is handed zero members and returns none, so `train` returns
none on a generation that had 3 members. -/
theorem train_none_despite_members :
    popC5kill.curr_gen.members.length = 3
    ∧ (Population.train (constSolve 1) constDist popC5kill).1 = none := by
  with_unfolding_all decide

/-- C5, amended: whenever `train` returns `Some (s, g)`, that pair is the
maximum-fitness member with ties broken by lower index, captured after fitness
evaluation and before speciation, genocides and the construction of the next generation;
and `train` returns none iff the current generation has no members, provided the
stagnation monitor does not fire in this cycle (counter below target) or no cleaners are
configured — a firing genocide that empties the speciated generation also makes `train`
return none. -/
theorem train_top_is_prebreeding_best {G E : Type} (f : G → ℚ × G)
    (dF : G → G → ℚ) (p : Population G E) :
    (∀ r, (Population.train f dF p).1 = some r →
        best_member (optimize f p.curr_gen) = some r)
    ∧ (∀ s g, (Population.train f dF p).1 = some (s, g) →
        IsTopMember (optimize f p.curr_gen) s g)
    ∧ (p.stagnation.target_stagnation ≠ p.stagnation.current_stagnation →
        ((Population.train f dF p).1 = none ↔ p.curr_gen.members = []))
    ∧ (p.stagnation.cleaners = [] →
        ((Population.train f dF p).1 = none ↔ p.curr_gen.members = [])) := by
  set q : Population G E := { p with curr_gen := optimize f p.curr_gen } with hq
  have hqgen : Population.train f dF p = Population.end_generation dF q := rfl
  have hmap : q.curr_gen.members = [] ↔ p.curr_gen.members = [] := by
    simp [hq, optimize]
  rcases hb : best_member q.curr_gen with _ | ⟨s0, g0⟩
  · have hres : (Population.train f dF p).1 = none := by
      rw [hqgen]
      unfold Population.end_generation
      rw [hb]
    have hpnil : p.curr_gen.members = [] := by
      rw [← hmap]
      exact (bmList_eq_none_iff _).mp hb
    refine ⟨?_, ?_, ?_, ?_⟩
    · intro r hrr; rw [hres] at hrr; cases hrr
    · intro s g hrr; rw [hres] at hrr; cases hrr
    · intro _; rw [hres]; simp [hpnil]
    · intro _; rw [hres]; simp [hpnil]
  · have hqne : q.curr_gen.members ≠ [] := by
      intro hnil
      have hnone : bmList q.curr_gen.members = none :=
        (bmList_eq_none_iff q.curr_gen.members).mpr hnil
      rw [show best_member q.curr_gen = bmList q.curr_gen.members from rfl,
        hnone] at hb
      cases hb
    rcases hc : create_next_generation (Population.afterMonitor dF s0 q).size
        (Population.afterMonitor dF s0 q).config
        (Population.afterMonitor dF s0 q).curr_gen with _ | g2
    · have hres : (Population.train f dF p).1 = none := by
        rw [hqgen]
        unfold Population.end_generation
        rw [hb]
        dsimp only
        rw [hc]
      have hmem0 : (Population.afterMonitor dF s0 q).curr_gen.members = [] :=
        (create_next_generation_eq_none_iff _ _ _).mp hc
      refine ⟨?_, ?_, ?_, ?_⟩
      · intro r hrr
        rw [hres] at hrr; cases hrr
      · intro s g hrr
        rw [hres] at hrr; cases hrr
      · intro hne
        exfalso
        have hlen := afterMonitor_members_length_of_ne dF s0 q hne
        rw [hmem0] at hlen
        have h0 : q.curr_gen.members.length = 0 := by simpa using hlen.symm
        exact hqne (List.length_eq_zero.mp h0)
      · intro hcl
        exfalso
        have hlen := afterMonitor_members_length_of_no_cleaners dF s0 q hcl
        rw [hmem0] at hlen
        have h0 : q.curr_gen.members.length = 0 := by simpa using hlen.symm
        exact hqne (List.length_eq_zero.mp h0)
    · have hres : (Population.train f dF p).1 = some (s0, g0) := by
        rw [hqgen]
        unfold Population.end_generation
        rw [hb]
        dsimp only
        rw [hc]
      refine ⟨?_, ?_, ?_, ?_⟩
      · intro r hrr
        rw [hres] at hrr
        rw [← hrr]
      · intro s g hrr
        rw [hres] at hrr
        simp only [Option.some.injEq, Prod.mk.injEq] at hrr
        obtain ⟨hs, hg⟩ := hrr
        subst hs; subst hg
        obtain ⟨pre, cc, post, hms, hfit, hmem2, hall, hpre⟩ := bmList_top _ _ _ hb
        exact ⟨pre, cc, post, hms, hfit, hmem2, hall, hpre⟩
      · intro _
        rw [hres]
        constructor
        · intro h2; exact absurd h2 (Option.some_ne_none _)
        · intro hnil; exact absurd (hmap.mpr hnil) hqne
      · intro _
        rw [hres]
        constructor
        · intro h2; exact absurd h2 (Option.some_ne_none _)
        · intro hnil; exact absurd (hmap.mpr hnil) hqne

/-- C5, witness: on members with fitness values 3, 7, 5 and no cleaners, `train`
returns the pre-breeding top `(7, 7)`, which is the tie-free argmax, and the
none-iff-empty equivalence holds. -/
theorem train_top_is_prebreeding_best_witness :
    popC5.stagnation.cleaners = []
    ∧ ((Population.train natSolve natDist popC5).1 = none
        ↔ popC5.curr_gen.members = [])
    ∧ IsTopMember (optimize natSolve popC5.curr_gen) 7 7 :=
  ⟨rfl,
   (train_top_is_prebreeding_best natSolve natDist popC5).2.2.2 rfl,
   (train_top_is_prebreeding_best natSolve natDist popC5).2.1 7 7
     (by with_unfolding_all decide)⟩

/-! ## C6: the run loop -/

/-- If the first `j` train results exist and are rejected by the runner (at the shifted
indices) and the `j`-th is accepted, the loop stops there with the accepted genome and
the environment snapshot of the state after that train. -/
theorem runAux_ok_of {G E : Type} (f : G → ℚ × G) (dF : G → G → ℚ)
    (runner : G → ℚ → Int → Bool) :
    ∀ (j fuel : Nat) (idx : Int) (p : Population G E), j < fuel →
      (∀ i, i < j → ∃ s g, Population.trainRes f dF p i = some (s, g)
          ∧ runner g s (idx + i) = false) →
      ∀ s g, Population.trainRes f dF p j = some (s, g) →
        runner g s (idx + j) = true →
        Population.runAux f dF runner fuel idx p
          = RunResult.ok g (Population.trainIter f dF (j + 1) p).environment := by
  intro j
  induction j with
  | zero =>
    intro fuel idx p hfuel hrej s g hres hacc
    obtain ⟨m, rfl⟩ : ∃ m, fuel = m + 1 := ⟨fuel - 1, by omega⟩
    have htr : (Population.train f dF p).1 = some (s, g) := hres
    unfold Population.runAux
    rcases htp : Population.train f dF p with ⟨r, p2⟩
    rw [htp] at htr
    dsimp only at htr
    subst htr
    dsimp only
    have : runner g s idx = true := by simpa using hacc
    rw [this]
    have hp2 : p2 = Population.trainIter f dF 1 p := by
      show p2 = (Population.train f dF p).2
      rw [htp]
    rw [hp2]
    simp
  | succ j ih =>
    intro fuel idx p hfuel hrej s g hres hacc
    obtain ⟨m, rfl⟩ : ∃ m, fuel = m + 1 := ⟨fuel - 1, by omega⟩
    obtain ⟨s0, g0, hres0, hrej0⟩ := hrej 0 (Nat.succ_pos j)
    have htr : (Population.train f dF p).1 = some (s0, g0) := hres0
    unfold Population.runAux
    rcases htp : Population.train f dF p with ⟨r, p2⟩
    rw [htp] at htr
    dsimp only at htr
    subst htr
    dsimp only
    have h0 : runner g0 s0 idx = false := by simpa using hrej0
    rw [h0]
    have hp2 : p2 = (Population.train f dF p).2 := by rw [htp]
    subst hp2
    have hshift : ∀ i, Population.trainRes f dF (Population.train f dF p).2 i
        = Population.trainRes f dF p (i + 1) := fun i => rfl
    have := ih m (idx + 1) (Population.train f dF p).2 (by omega)
      (fun i hi => by
        obtain ⟨s1, g1, ha, hb2⟩ := hrej (i + 1) (by omega)
        exact ⟨s1, g1, by rw [hshift]; exact ha, by
          have : idx + 1 + (i : Int) = idx + ((i : Nat) + 1 : Nat) := by push_cast; ring
          rw [this]; exact hb2⟩)
      s g (by rw [hshift]; exact hres)
      (by
        have : idx + 1 + (j : Int) = idx + ((j : Nat) + 1 : Nat) := by push_cast; ring
        rw [this]; exact hacc)
    rw [this]
    have hiter : Population.trainIter f dF (j + 1 + 1) p
        = Population.trainIter f dF (j + 1) (Population.train f dF p).2 := rfl
    rw [hiter]
    simp

/-- If the first `k` train results exist and are rejected and the `k`-th train fails,
the loop returns the training error. -/
theorem runAux_err_of {G E : Type} (f : G → ℚ × G) (dF : G → G → ℚ)
    (runner : G → ℚ → Int → Bool) :
    ∀ (k fuel : Nat) (idx : Int) (p : Population G E), k < fuel →
      (∀ i, i < k → ∃ s g, Population.trainRes f dF p i = some (s, g)
          ∧ runner g s (idx + i) = false) →
      Population.trainRes f dF p k = none →
      Population.runAux f dF runner fuel idx p = RunResult.err "Error Training" := by
  intro k
  induction k with
  | zero =>
    intro fuel idx p hfuel hrej hres
    obtain ⟨m, rfl⟩ : ∃ m, fuel = m + 1 := ⟨fuel - 1, by omega⟩
    have htr : (Population.train f dF p).1 = none := hres
    unfold Population.runAux
    rcases htp : Population.train f dF p with ⟨r, p2⟩
    rw [htp] at htr
    dsimp only at htr
    subst htr
    rfl
  | succ k ih =>
    intro fuel idx p hfuel hrej hres
    obtain ⟨m, rfl⟩ : ∃ m, fuel = m + 1 := ⟨fuel - 1, by omega⟩
    obtain ⟨s0, g0, hres0, hrej0⟩ := hrej 0 (Nat.succ_pos k)
    have htr : (Population.train f dF p).1 = some (s0, g0) := hres0
    unfold Population.runAux
    rcases htp : Population.train f dF p with ⟨r, p2⟩
    rw [htp] at htr
    dsimp only at htr
    subst htr
    dsimp only
    have h0 : runner g0 s0 idx = false := by simpa using hrej0
    rw [h0]
    have hp2 : p2 = (Population.train f dF p).2 := by rw [htp]
    subst hp2
    have hshift : ∀ i, Population.trainRes f dF (Population.train f dF p).2 i
        = Population.trainRes f dF p (i + 1) := fun i => rfl
    exact ih m (idx + 1) (Population.train f dF p).2 (by omega)
      (fun i hi => by
        obtain ⟨s1, g1, ha, hb2⟩ := hrej (i + 1) (by omega)
        exact ⟨s1, g1, by rw [hshift]; exact ha, by
          have : idx + 1 + (i : Int) = idx + ((i : Nat) + 1 : Nat) := by push_cast; ring
          rw [this]; exact hb2⟩)
      (by rw [hshift]; exact hres)

/-- The loop returns the training error only when some train call within the fuel
bound returned none. -/
theorem runAux_err_exists {G E : Type} (f : G → ℚ × G) (dF : G → G → ℚ)
    (runner : G → ℚ → Int → Bool) :
    ∀ (fuel : Nat) (idx : Int) (p : Population G E) (m : String),
      Population.runAux f dF runner fuel idx p = RunResult.err m →
      ∃ k, k < fuel ∧ Population.trainRes f dF p k = none := by
  intro fuel
  induction fuel with
  | zero => intro idx p m h; cases h
  | succ fuel ih =>
    intro idx p m h
    unfold Population.runAux at h
    rcases htp : Population.train f dF p with ⟨r, p2⟩
    rw [htp] at h
    rcases r with _ | ⟨s, g⟩
    · exact ⟨0, Nat.succ_pos fuel, show (Population.train f dF p).1 = none by
        rw [htp]⟩
    · have h2 : (if runner g s idx = true then RunResult.ok g p2.environment
          else Population.runAux f dF runner fuel (idx + 1) p2)
          = RunResult.err m := h
      rcases hrun : runner g s idx with _ | _
      · rw [hrun] at h2
        simp only [Bool.false_eq_true, if_false] at h2
        obtain ⟨k, hk, hnone⟩ := ih (idx + 1) p2 m h2
        refine ⟨k + 1, by omega, ?_⟩
        show Population.trainRes f dF (Population.train f dF p).2 k = none
        rw [htp]
        exact hnone
      · rw [hrun] at h2
        simp only [if_true] at h2
        cases h2

/-- C6: `run` feeds the runner the top genome, its score and the iteration index
starting at 0 and incremented once per train call; it returns Ok with the accepted top
genome and the environment snapshot at the first accepting iteration, and it returns the
training error exactly when some train call returns none before any acceptance (within
the explicit fuel bound of the embedding). -/
theorem run_loop_characterization {G E : Type} (f : G → ℚ × G) (dF : G → G → ℚ)
    (runner : G → ℚ → Int → Bool) (fuel : Nat) (p : Population G E) :
    (∀ j, j < fuel →
      (∀ i, i < j → ∃ s g, Population.trainRes f dF p i = some (s, g)
          ∧ runner g s i = false) →
      ∀ s g, Population.trainRes f dF p j = some (s, g) → runner g s j = true →
        Population.run f dF runner fuel p
          = RunResult.ok g (Population.trainIter f dF (j + 1) p).environment)
    ∧ (∀ k, k < fuel →
      (∀ i, i < k → ∃ s g, Population.trainRes f dF p i = some (s, g)
          ∧ runner g s i = false) →
      Population.trainRes f dF p k = none →
        Population.run f dF runner fuel p = RunResult.err "Error Training")
    ∧ (∀ m, Population.run f dF runner fuel p = RunResult.err m →
        ∃ k, k < fuel ∧ Population.trainRes f dF p k = none) := by
  refine ⟨?_, ?_, ?_⟩
  · intro j hj hrej s g hres hacc
    have h := runAux_ok_of f dF runner j fuel 0 p hj
      (fun i hi => by
        obtain ⟨s1, g1, ha, hb⟩ := hrej i hi
        exact ⟨s1, g1, ha, by simpa using hb⟩)
      s g hres (by simpa using hacc)
    simpa [Population.run] using h
  · intro k hk hrej hres
    have h := runAux_err_of f dF runner k fuel 0 p hk
      (fun i hi => by
        obtain ⟨s1, g1, ha, hb⟩ := hrej i hi
        exact ⟨s1, g1, ha, by simpa using hb⟩)
      hres
    simpa [Population.run] using h
  · intro m h
    exact runAux_err_exists f dF runner fuel 0 p m h

/-- C6, witness: with fitness equal to the genome value, members 3, 7, 5 and a runner
accepting at iteration index 1, `run` rejects `(7, 7)` at index 0 and stops at index 1
with the top genome of the second cycle. -/
theorem run_loop_characterization_witness :
    Population.run natSolve natDist runnerC6 5 popC6
      = RunResult.ok 3 (Population.trainIter natSolve natDist 2 popC6).environment :=
  (run_loop_characterization natSolve natDist runnerC6 5 popC6).1 1 (by decide)
    (fun i hi => by
      have hi0 : i = 0 := by omega
      subst hi0
      exact ⟨7, 7, by with_unfolding_all decide, by decide⟩)
    3 3 (by with_unfolding_all decide) (by decide)

/-! ## C7: the selection-policy setters -/

/-- A fully configured concrete population: setters for both selection policies are
called before seeding, as the builder chain of the source suggests. -/
def popC7 (s : SurvivalCriteria) (q : ParentalCriteria) : Population Nat Unit :=
  ((((Population.new Nat Unit).survivor_criteriaSet s).parental_criteriaSet
    q).sizeSet 3).populate_clone 5

/-- C7: the policies installed by `survivor_criteria`/`parental_criteria` are never the
ones used.  Whatever `s` and `q` were installed, `populate_clone` hardcodes
`Fittest`/`BiasedRandom` into the generation, calling a setter after seeding leaves the
generation untouched, and after a full `train` cycle the generation that
`create_next_generation` produced still carries `Fittest`/`BiasedRandom`: the Population
fields written by the setters are read by nothing in the cycle (`end_generation` hands
`create_next_generation` only the size, a clone of the config and the environment). -/
theorem selection_policy_setters_unused {G E : Type} (s : SurvivalCriteria)
    (q : ParentalCriteria) (g : G) (p : Population G E) :
    (((p.survivor_criteriaSet s).parental_criteriaSet q).populate_clone
        g).curr_gen.survival_criteria = SurvivalCriteria.Fittest
    ∧ (((p.survivor_criteriaSet s).parental_criteriaSet q).populate_clone
        g).curr_gen.parental_criteria = ParentalCriteria.BiasedRandom
    ∧ ((p.populate_clone g).survivor_criteriaSet s).curr_gen
        = (p.populate_clone g).curr_gen
    ∧ ((p.populate_clone g).parental_criteriaSet q).curr_gen
        = (p.populate_clone g).curr_gen
    ∧ (Population.train natSolve natDist (popC7 s q)).2.curr_gen.survival_criteria
        = SurvivalCriteria.Fittest
    ∧ (Population.train natSolve natDist (popC7 s q)).2.curr_gen.parental_criteria
        = ParentalCriteria.BiasedRandom := by
  refine ⟨rfl, rfl, rfl, rfl, ?_, ?_⟩ <;> with_unfolding_all rfl

/-! ## C8: populate_clone -/

/-- C8: for a configured size `n ≥ 0` (within the i32 range), `populate_clone g` seeds
exactly `n` containers, all equal to the fresh container of `g`: genome `g`, fitness 0,
no species. -/
theorem populate_clone_fills_with_clones {G E : Type} (g : G) (p : Population G E)
    (n : Int) (h0 : 0 ≤ n) (h1 : n < 2 ^ 31) :
    ((p.sizeSet n).populate_clone g).curr_gen.members
        = List.replicate n.toNat { member := g, fitness_score := 0, species := none }
    ∧ ((p.sizeSet n).populate_clone g).curr_gen.members.length = n.toNat
    ∧ ∀ c ∈ ((p.sizeSet n).populate_clone g).curr_gen.members,
        c.member = g ∧ c.fitness_score = 0 ∧ c.species = none := by
  have hcast : usizeOfI32 n = n.toNat := by
    unfold usizeOfI32
    have h64 : (2 : Int) ^ 64 = 18446744073709551616 := by norm_num
    have h31 : (2 : Int) ^ 31 = 2147483648 := by norm_num
    rw [h64]
    rw [h31] at h1
    omega
  have hmem : ((p.sizeSet n).populate_clone g).curr_gen.members
      = List.replicate n.toNat { member := g, fitness_score := 0, species := none } := by
    show List.replicate (usizeOfI32 n) _ = _
    rw [hcast]
  refine ⟨hmem, ?_, ?_⟩
  · rw [hmem]; simp
  · intro c hc
    rw [hmem] at hc
    have hce := List.eq_of_mem_replicate hc
    exact ⟨by rw [hce], by rw [hce], by rw [hce]⟩

/-- C8, witness: at size 3 and genome 7 the generation is exactly three fresh clone
containers. -/
theorem populate_clone_fills_with_clones_witness :
    (0 : Int) ≤ 3 ∧ (3 : Int) < 2 ^ 31
    ∧ (((Population.new Nat Unit).sizeSet 3).populate_clone 7).curr_gen.members
        = List.replicate (3 : Int).toNat
            { member := 7, fitness_score := 0, species := none } :=
  ⟨by norm_num, by norm_num,
   (populate_clone_fills_with_clones 7 (Population.new Nat Unit) 3 (by norm_num)
     (by norm_num)).1⟩

/-! ## C9: distance is untouched when dynamic distance is off -/

/-- With `dynamic_distance = false`, `end_generation` returns the config unchanged:
`adjust_distance` is skipped and no other step of the cycle writes the config. -/
theorem end_generation_config_static {G E : Type} (dF : G → G → ℚ)
    (p : Population G E) (h : p.dynamic_distance = false) :
    (Population.end_generation dF p).2.config = p.config := by
  unfold Population.end_generation
  rcases hb : best_member p.curr_gen with _ | top
  · rfl
  · dsimp only
    have hAM : (Population.afterMonitor dF top.1 p).config = p.config := by
      unfold Population.afterMonitor
      dsimp only
      rw [h]
      simp only [Bool.false_eq_true, if_false]
      rw [(manage_stagnation_frame _ _).2.1]
    rcases hc : create_next_generation (Population.afterMonitor dF top.1 p).size
        (Population.afterMonitor dF top.1 p).config
        (Population.afterMonitor dF top.1 p).curr_gen with _ | g2
    · exact hAM
    · exact hAM

/-- C9: with `dynamic_distance = false`, one `train` (or `end_generation`) call leaves
`config.distance` unchanged. -/
theorem train_keeps_distance_when_static {G E : Type} (f : G → ℚ × G)
    (dF : G → G → ℚ) (p : Population G E) (h : p.dynamic_distance = false) :
    (Population.train f dF p).2.config.distance = p.config.distance
    ∧ (Population.end_generation dF p).2.config.distance = p.config.distance := by
  constructor
  · have hcfg := end_generation_config_static dF
      { p with curr_gen := optimize f p.curr_gen } h
    rw [show Population.train f dF p
        = Population.end_generation dF { p with curr_gen := optimize f p.curr_gen }
      from rfl]
    rw [hcfg]
  · rw [end_generation_config_static dF p h]

/-- C9, witness: a static-distance population with threshold 3.5 keeps it through a
train cycle. -/
theorem train_keeps_distance_when_static_witness :
    popC9.dynamic_distance = false
    ∧ ((Population.train (constSolve 1) constDist popC9).2.config.distance
          = popC9.config.distance
       ∧ (Population.end_generation constDist popC9).2.config.distance
          = popC9.config.distance) :=
  ⟨rfl, train_keeps_distance_when_static (constSolve 1) constDist popC9 rfl⟩

/-! ## C10: populate_vec -/

/-- C10: `populate_vec vals` seeds exactly one fresh container per input genome, in
input order, with fitness 0 and no species, independently of the configured size, and
with an empty species list. -/
theorem populate_vec_seeds_in_order {G E : Type} (vals : List G)
    (p : Population G E) :
    (p.populate_vec vals).curr_gen.members
        = vals.map (fun x => { member := x, fitness_score := 0, species := none })
    ∧ (p.populate_vec vals).curr_gen.members.length = vals.length
    ∧ (∀ n : Int, ((p.sizeSet n).populate_vec vals).curr_gen
        = (p.populate_vec vals).curr_gen)
    ∧ (p.populate_vec vals).curr_gen.species = [] := by
  refine ⟨rfl, ?_, fun n => rfl, rfl⟩
  show (vals.map _).length = vals.length
  rw [List.length_map]
